import Mathlib

/-!
Verification of the opencode OAuth provider plugin
(`packages/plugin/src/index.ts`).

The development shallowly embeds the plugin's token lifecycle manager and
fetch interceptor:

* `fetchToken` models the token-endpoint response handling of the source
  function `fetchToken` (lines 109-139): non-ok responses become a thrown
  `Error` whose message carries the HTTP status and body; `token_type` and
  `expires_in` default via JavaScript `||` (so empty string and `0` count
  as absent).
* `getTokenDecide` models the synchronous prefix of `getToken`
  (lines 145-155): return a fresh-enough cached token, else join the
  pending fetch promise, else start a new fetch.
* `getTokenSeq` is the single-caller (sequential) run of `getToken`,
  combining the decision with the completion handlers (lines 157-169).
* A labelled transition system (`SysState`, `applyLabel`, `runTrace`)
  models the concurrent behaviour of `getToken` for one destination:
  callers run the synchronous prefix atomically (JavaScript
  run-to-completion between awaits), in-flight fetches resolve or reject,
  and `Label.invalidate` models `tokenCache.delete(providerId)` from the
  interceptor's 401 path (line 297).
* `dispatch` models one run of the fetch interceptor (lines 271-316)
  against oracles for the token endpoint and the protected endpoint.
* `FetchImpl` / `installFetchInterceptor` model the idempotent
  installation guard (lines 268-269, 318) and the wrapper's retained
  reference to the original transport (lines 74-75, 292).

All timestamps are milliseconds, as in the source (`Date.now()`).
-/

namespace OAuthPlugin

/-- Structure `TokenData` from the source (lines 56-60). -/
structure TokenData where
  accessToken : String
  tokenType : String
  expiresAt : Nat
deriving Repr, DecidableEq

/-- One entry of `tokenCache` (lines 63-66): the cached token and the
in-flight fetch promise, the latter modelled by the identifier of the
pending fetch. -/
structure CacheEntry where
  token : Option TokenData
  promise : Option Nat
deriving Repr, DecidableEq

/-- Structure `OAuthConfig` from the source (lines 35-40). -/
structure OAuthConfig where
  tokenUrl : String
  clientId : String
  clientSecret : String
  scope : Option String
deriving Repr, DecidableEq

/-- The JSON body of a successful token-endpoint response
(`data` at line 131): `access_token` required, `token_type` and
`expires_in` optional. -/
structure TokenJson where
  access_token : String
  token_type : Option String
  expires_in : Option Nat
deriving Repr, DecidableEq

/-- The wire-level token-endpoint response observed by `fetchToken`:
`res.ok`, `res.status`, `res.text()` and the parse of `res.json()`
(`none` when the body is not valid JSON). -/
structure HttpResponse where
  ok : Bool
  status : Nat
  bodyText : String
  json : Option TokenJson
deriving Repr, DecidableEq

/-- JavaScript `s || d` on an optional string: `undefined` and the empty
string are falsy. Models `data.token_type || "Bearer"` (line 136). -/
def jsOrString (v : Option String) (d : String) : String :=
  match v with
  | none => d
  | some s => if s = "" then d else s

/-- JavaScript `n || d` on an optional number: `undefined` and `0` are
falsy. Models `data.expires_in || 3600` (line 137). -/
def jsOrNat (v : Option Nat) (d : Nat) : Nat :=
  match v with
  | none => d
  | some n => if n = 0 then d else n

/-- Function `fetchToken` (lines 109-139), given the wire outcome of the POST to
the token endpoint. `Except.error` on the wire side is a transport-level
rejection (DNS, timeout); it propagates unchanged because the source has
no catch around `originalFetch`. A non-ok response throws
`Error('OAuth token failed (status): body')` (line 128). A success builds
`TokenData` with the `||` defaults (lines 134-138). -/
def fetchToken (config : OAuthConfig) (now : Nat)
    (wire : Except String HttpResponse) : Except String TokenData :=
  match wire with
  | .error cause => .error cause
  | .ok res =>
      if res.ok = false then
        .error ("OAuth token failed (" ++ toString res.status ++ "): " ++ res.bodyText)
      else
        match res.json with
        | none => .error "SyntaxError: JSON parse error"
        | some data =>
            .ok { accessToken := data.access_token,
                  tokenType := jsOrString data.token_type "Bearer",
                  expiresAt := now + (jsOrNat data.expires_in 3600) * 1000 }

/-- The three ways the synchronous prefix of `getToken` can go. -/
inductive GetTokenAction where
  | returnCached (t : TokenData)
  | awaitPending (p : Nat)
  | startFetch
deriving Repr, DecidableEq

/-- The synchronous prefix of `getToken` (lines 145-155): return the
cached token when `expiresAt > Date.now() + 60000`, else return the
pending promise when one exists, else start a new fetch. -/
def getTokenDecide (cached : Option CacheEntry) (now : Nat) : GetTokenAction :=
  match cached with
  | some c =>
      match c.token with
      | some t =>
          if now + 60000 < t.expiresAt then .returnCached t
          else
            match c.promise with
            | some p => .awaitPending p
            | none => .startFetch
      | none =>
          match c.promise with
          | some p => .awaitPending p
          | none => .startFetch
  | none => .startFetch

/-- A single-caller run of `getToken` (lines 145-169): the decision
followed by the completion handlers of the `try`/`catch`. `fr` is the
outcome the started fetch would resolve to. Returns the caller's result,
the cache entry afterwards, and whether a fetch was issued; `none` when
the caller would join a promise owned by another task (outside the
sequential model). -/
def getTokenSeq (cached : Option CacheEntry) (now : Nat)
    (fr : Except String TokenData) :
    Option (Except String TokenData × Option CacheEntry × Bool) :=
  match getTokenDecide cached now with
  | .returnCached t => some (.ok t, cached, false)
  | .awaitPending _ => none
  | .startFetch =>
      match fr with
      | .ok t => some (.ok t, some ⟨some t, none⟩, true)
      | .error e => some (.error e, some ⟨cached.bind CacheEntry.token, none⟩, true)

/-! ## Concurrent model of `getToken` for one destination

JavaScript is run-to-completion between awaits, so the synchronous prefix
of `getToken` (cache check, promise check, `tokenCache.set` of the pending
entry) is one atomic step, as is each completion continuation. -/

/-- Where a logical caller of `getToken` stands. -/
inductive Phase where
  | ready (now : Nat)
  | waiting (fid : Nat)
  | gotToken (t : TokenData)
  | gotError (e : String)
deriving Repr, DecidableEq

/-- An in-flight token fetch: its identifier and the `existingToken`
captured by the owning caller at line 159 (used by the catch handler at
line 167). -/
structure Flight where
  fid : Nat
  saved : Option TokenData
deriving Repr, DecidableEq

/-- The state of one destination's slice of the system: the
`tokenCache` entry, the callers, the next fresh fetch identifier, the
fetches currently in flight, and how many fetches were ever started. -/
structure SysState where
  entry : Option CacheEntry
  callers : List Phase
  nextFid : Nat
  flights : List Flight
  fetchesStarted : Nat
deriving Repr, DecidableEq

/-- Events: a caller runs the synchronous prefix of `getToken`; an
in-flight fetch resolves or rejects; the interceptor's 401 path runs
`tokenCache.delete(providerId)` (line 297). -/
inductive Label where
  | run (i : Nat)
  | succeed (fid : Nat) (t : TokenData)
  | fail (fid : Nat) (e : String)
  | invalidate
deriving Repr, DecidableEq

/-- Caller `i` runs lines 145-160: decide, and on `startFetch` publish
the pending entry `{ token: existingToken, promise }` before awaiting. -/
def runCaller (s : SysState) (i : Nat) : Option SysState :=
  match s.callers.get? i with
  | some (.ready now) =>
      match getTokenDecide s.entry now with
      | .returnCached t =>
          some { s with callers := s.callers.set i (.gotToken t) }
      | .awaitPending p =>
          some { s with callers := s.callers.set i (.waiting p) }
      | .startFetch =>
          some { s with
            entry := some ⟨s.entry.bind CacheEntry.token, some s.nextFid⟩,
            callers := s.callers.set i (.waiting s.nextFid),
            nextFid := s.nextFid + 1,
            flights := ⟨s.nextFid, s.entry.bind CacheEntry.token⟩ :: s.flights,
            fetchesStarted := s.fetchesStarted + 1 }
  | _ => none

/-- Resolve a caller awaiting fetch `fid` to phase `r`. -/
def resolvePhase (fid : Nat) (r : Phase) (p : Phase) : Phase :=
  match p with
  | .waiting f => if f = fid then r else p
  | _ => p

/-- Fetch `fid` resolves with token `t`: the owner's continuation stores
`{ token, promise: null }` (line 164) and every caller awaiting the
promise observes `t`. -/
def completeOk (s : SysState) (fid : Nat) (t : TokenData) : Option SysState :=
  if s.flights.any (fun f => f.fid == fid) then
    some { s with
      entry := some ⟨some t, none⟩,
      callers := s.callers.map (resolvePhase fid (.gotToken t)),
      flights := s.flights.filter (fun g => g.fid != fid) }
  else none

/-- Fetch `fid` rejects with error `e`: the owner's catch handler stores
`{ token: existingToken, promise: null }` (line 167) and every caller
awaiting the promise observes the rejection. -/
def completeErr (s : SysState) (fid : Nat) (e : String) : Option SysState :=
  match s.flights.find? (fun f => f.fid == fid) with
  | none => none
  | some f =>
      some { s with
        entry := some ⟨f.saved, none⟩,
        callers := s.callers.map (resolvePhase fid (.gotError e)),
        flights := s.flights.filter (fun g => g.fid != fid) }

/-- One step of the system. `invalidate` is `tokenCache.delete`: it
removes the whole cache entry and nothing else. -/
def applyLabel (s : SysState) : Label → Option SysState
  | .run i => runCaller s i
  | .succeed fid t => completeOk s fid t
  | .fail fid e => completeErr s fid e
  | .invalidate => some { s with entry := none }

/-- Run a list of labels. -/
def runTrace (s : SysState) : List Label → Option SysState
  | [] => some s
  | l :: ls =>
      match applyLabel s l with
      | some s' => runTrace s' ls
      | none => none

/-- Initial state: empty cache, callers ready at the given times. -/
def mkInit (times : List Nat) : SysState :=
  ⟨none, times.map Phase.ready, 0, [], 0⟩

/-- The labels that make callers `start, start+1, ..., start+m-1` run
`getToken`, in order. -/
def seqRuns : Nat → Nat → List Label
  | _, 0 => []
  | start, m + 1 => .run start :: seqRuns (start + 1) m

/-- The promise slot of a cache entry (null when the entry is absent). -/
def promSlot : Option CacheEntry → Option Nat
  | none => none
  | some c => c.promise

/-- The token slot of a cache entry (null when the entry is absent). -/
def entryToken : Option CacheEntry → Option TokenData
  | none => none
  | some c => c.token

/-! ## String occurrence (for reasoning about error messages) -/

/-- Means `leadsWith l m`: `m` occurs at the head of `l`. -/
def leadsWith : List Char → List Char → Bool
  | _, [] => true
  | [], _ :: _ => false
  | a :: l, b :: m => a == b && leadsWith l m

/-- Means `occursIn m l`: `m` occurs contiguously somewhere in `l`. -/
def occursIn (m : List Char) : List Char → Bool
  | [] => m.isEmpty
  | a :: l => leadsWith (a :: l) m || occursIn m l

/-- Substring occurrence on strings. -/
def strOccurs (m s : String) : Bool :=
  occursIn m.toList s.toList

/-- Means `strLeads s pre`: `s` starts with `pre`. Models JavaScript
`s.startsWith(pre)` (line 281) as a character-level prefix test. -/
def strLeads (s pre : String) : Bool :=
  leadsWith s.toList pre.toList

/-! ## The fetch interceptor -/

/-- A protected-endpoint HTTP response. -/
structure Response where
  status : Nat
  body : String
deriving Repr, DecidableEq

/-- One value of the `oauthProviders` map (lines 69-72). -/
structure ProviderEntry where
  baseURL : String
  oauth : OAuthConfig
deriving Repr, DecidableEq

/-- Models `Headers.set`: replace the value of an existing name, else append. -/
def hset (hs : List (String × String)) (k v : String) : List (String × String) :=
  if hs.any (fun p => p.1 == k) then
    hs.map (fun p => if p.1 == k then (k, v) else p)
  else hs ++ [(k, v)]

/-- The `Authorization` header value built at lines 287-290. -/
def authHeaderValue (t : TokenData) : String :=
  t.tokenType ++ " " ++ t.accessToken

instance {α : Type} {β : Type} [DecidableEq α] [DecidableEq β] :
    DecidableEq (Except α β) := fun x y =>
  match x, y with
  | .ok a, .ok b =>
      if h : a = b then isTrue (by rw [h]) else isFalse (by simp [h])
  | .error a, .error b =>
      if h : a = b then isTrue (by rw [h]) else isFalse (by simp [h])
  | .ok _, .error _ => isFalse (by simp)
  | .error _, .ok _ => isFalse (by simp)

/-- The outcome of one interceptor dispatch: the caller-visible result,
the cache entry of the matched destination afterwards, the header lists
sent on each protected-endpoint transport call (in order), the number of
token-endpoint fetches issued, and the matched provider id (`none` for
pass-through). -/
structure DispatchResult where
  result : Except String Response
  cache : Option CacheEntry
  sent : List (List (String × String))
  fetches : Nat
  matched : Option String
deriving Repr, DecidableEq

/-- One run of the interceptor (lines 271-316) for a request to `url`
with the caller's headers `initHeaders`. `providers` is `oauthProviders`
in iteration order; `cache0` the matched destination's cache entry;
`tokenWire n` the wire outcome of the `n`-th token-endpoint POST of this
dispatch; `prot n` the response of the `n`-th protected-endpoint call.
All transport calls inside the interceptor go through the retained
`originalFetch`. Returns `none` only when `getToken` would join a fetch
owned by another task (outside this single-dispatch model). -/
def dispatch (providers : List (String × ProviderEntry)) (url : String)
    (initHeaders : List (String × String)) (cache0 : Option CacheEntry)
    (now : Nat) (tokenWire : Nat → Except String HttpResponse)
    (prot : Nat → Response) : Option DispatchResult :=
  match providers.find? (fun p => strLeads url p.2.baseURL) with
  | none => some ⟨.ok (prot 0), cache0, [initHeaders], 0, none⟩
  | some (pid, entry) =>
      match getTokenSeq cache0 now (fetchToken entry.oauth now (tokenWire 0)) with
      | none => none
      | some (.error e, cache1, f1) =>
          some ⟨.error e, cache1, [], if f1 then 1 else 0, some pid⟩
      | some (.ok token, cache1, f1) =>
          let n1 : Nat := if f1 then 1 else 0
          let headers := hset initHeaders "Authorization" (authHeaderValue token)
          let res1 := prot 0
          if res1.status = 401 then
            match getTokenSeq none now (fetchToken entry.oauth now (tokenWire n1)) with
            | none => none
            | some (.error e, cache2, _) =>
                some ⟨.error e, cache2, [headers], n1 + 1, some pid⟩
            | some (.ok newToken, cache2, _) =>
                let headers2 := hset headers "Authorization" (authHeaderValue newToken)
                some ⟨.ok (prot 1), cache2, [headers, headers2], n1 + 1, some pid⟩
          else
            some ⟨.ok res1, cache1, [headers], n1, some pid⟩

/-! ## Installation of the interceptor -/

/-- The possible values of `globalThis.fetch`: the module-load-time
original (line 75), or an interceptor closure retaining some transport
reference for its own calls (lines 292, 303, 315). -/
inductive FetchImpl where
  | original
  | interceptor (transport : FetchImpl)
deriving Repr, DecidableEq

/-- The module-level `originalFetch` binding (line 75). -/
def originalFetchRef : FetchImpl := .original

/-- Function `installFetchInterceptor` (lines 268-319) acting on
`globalThis.fetch`: skip when the global no longer equals the saved
original, else install a wrapper that closes over `originalFetch`. -/
def installFetchInterceptor (globalFetch : FetchImpl) : FetchImpl :=
  if globalFetch ≠ originalFetchRef then globalFetch
  else .interceptor originalFetchRef

/-- The transport a wrapper calls, when the implementation is a wrapper. -/
def transportOf : FetchImpl → Option FetchImpl
  | .original => none
  | .interceptor t => some t

/-! ## Basic lemmas -/

theorem entryToken_def (c : Option CacheEntry) :
    entryToken c = c.bind CacheEntry.token := by
  cases c <;> rfl

theorem jsOrString_some (s d : String) (hs : s ≠ "") :
    jsOrString (some s) d = s := if_neg hs

theorem jsOrNat_some (k d : Nat) (hk : k ≠ 0) :
    jsOrNat (some k) d = k := if_neg hk

/-! ## C2, C7, C9, C10 -/

/-- C2. Expiry margin: `getToken` returns the cached token, leaves the
cache untouched and issues no network call iff `expiresAt` exceeds the
current time plus 60 seconds (60000 ms); in particular a token expiring
59 s from now triggers a fetch (flag `true`), while a token expiring 61 s
from now is returned with no fetch (flag `false`). -/
theorem expiry_margin (t : TokenData) (pr : Option Nat) (now : Nat)
    (fr : Except String TokenData) :
    (getTokenSeq (some ⟨some t, pr⟩) now fr
        = some (.ok t, some ⟨some t, pr⟩, false) ↔ now + 60000 < t.expiresAt)
    ∧ (∀ (a ty : String) (t2 : TokenData),
        getTokenSeq (some ⟨some ⟨a, ty, now + 59000⟩, none⟩) now (.ok t2)
          = some (.ok t2, some ⟨some t2, none⟩, true))
    ∧ (∀ (a ty : String) (fr2 : Except String TokenData),
        getTokenSeq (some ⟨some ⟨a, ty, now + 61000⟩, none⟩) now fr2
          = some (.ok ⟨a, ty, now + 61000⟩,
                  some ⟨some ⟨a, ty, now + 61000⟩, none⟩, false)) := by
  refine ⟨?_, ?_, ?_⟩
  · constructor
    · intro h
      by_contra hlt
      push_neg at hlt
      have hc : ¬ (now + 60000 < t.expiresAt) := by omega
      cases pr with
      | none =>
          simp only [getTokenSeq, getTokenDecide, if_neg hc] at h
          cases fr <;> simp_all
      | some p =>
          simp only [getTokenSeq, getTokenDecide, if_neg hc] at h
          exact Option.noConfusion h
    · intro h
      simp [getTokenSeq, getTokenDecide, if_pos h]
  · intro a ty t2
    have hc : ¬ (now + 60000 < now + 59000) := by omega
    simp [getTokenSeq, getTokenDecide, if_neg hc]
  · intro a ty fr2
    have hc : now + 60000 < now + 61000 := by omega
    simp [getTokenSeq, getTokenDecide, if_pos hc]

/-- C7. Idempotent installation: installing the interceptor twice equals
installing it once; the installed wrapper retains the module-level
original transport as its own transport, and the wrapper is distinct from
the original, so the wrapper never calls itself. -/
theorem install_idempotent :
    (∀ g : FetchImpl,
        installFetchInterceptor (installFetchInterceptor g)
          = installFetchInterceptor g)
    ∧ transportOf (installFetchInterceptor originalFetchRef)
        = some originalFetchRef
    ∧ installFetchInterceptor originalFetchRef ≠ originalFetchRef := by
  refine ⟨?_, by simp [installFetchInterceptor, transportOf],
          by simp [installFetchInterceptor, originalFetchRef]⟩
  intro g
  cases g with
  | original => simp [installFetchInterceptor, originalFetchRef, transportOf]
  | interceptor t => simp [installFetchInterceptor, originalFetchRef]

/-- C9. Token defaults: a successful issuer response yields a token whose
`tokenType` is the response's `token_type` (when present and non-empty)
and `"Bearer"` when omitted, and whose `expiresAt` is the fetch time plus
`expires_in` seconds (when present and non-zero), defaulting to 3600
seconds when omitted; the response
`{access_token:"tok2", expires_in:60}` with no `token_type` yields the
header value `"Bearer tok2"`. -/
theorem token_defaults (cfg : OAuthConfig) (now status : Nat)
    (body a : String) :
    (fetchToken cfg now (.ok ⟨true, status, body, some ⟨a, none, none⟩⟩)
        = .ok ⟨a, "Bearer", now + 3600 * 1000⟩)
    ∧ (∀ (s : String) (k : Nat), s ≠ "" → k ≠ 0 →
        fetchToken cfg now (.ok ⟨true, status, body, some ⟨a, some s, some k⟩⟩)
          = .ok ⟨a, s, now + k * 1000⟩)
    ∧ (∀ k : Nat, k ≠ 0 →
        fetchToken cfg now (.ok ⟨true, status, body, some ⟨a, none, some k⟩⟩)
          = .ok ⟨a, "Bearer", now + k * 1000⟩)
    ∧ (∀ s : String, s ≠ "" →
        fetchToken cfg now (.ok ⟨true, status, body, some ⟨a, some s, none⟩⟩)
          = .ok ⟨a, s, now + 3600 * 1000⟩)
    ∧ (fetchToken cfg now (.ok ⟨true, 200, "", some ⟨"tok2", none, some 60⟩⟩)).map
        authHeaderValue = .ok ("Bearer tok2") := by
  refine ⟨rfl, ?_, ?_, ?_, rfl⟩
  · intro s k hs hk
    have e : fetchToken cfg now (.ok ⟨true, status, body, some ⟨a, some s, some k⟩⟩)
        = Except.ok (⟨a, jsOrString (some s) "Bearer",
            now + (jsOrNat (some k) 3600) * 1000⟩ : TokenData) := rfl
    rw [e, jsOrString_some s _ hs, jsOrNat_some k _ hk]
  · intro k hk
    have e : fetchToken cfg now (.ok ⟨true, status, body, some ⟨a, none, some k⟩⟩)
        = Except.ok (⟨a, "Bearer", now + (jsOrNat (some k) 3600) * 1000⟩ : TokenData) := rfl
    rw [e, jsOrNat_some k _ hk]
  · intro s hs
    have e : fetchToken cfg now (.ok ⟨true, status, body, some ⟨a, some s, none⟩⟩)
        = Except.ok (⟨a, jsOrString (some s) "Bearer", now + 3600 * 1000⟩ : TokenData) := rfl
    rw [e, jsOrString_some s _ hs]

/-- C9 witness: the theorem at concrete inputs, hypotheses discharged. -/
theorem token_defaults_witness :
    fetchToken ⟨"https://auth/t", "id", "sec", none⟩ 1000
        (.ok ⟨true, 200, "", some ⟨"tokA", some "mac", some 60⟩⟩)
      = .ok ⟨"tokA", "mac", 1000 + 60 * 1000⟩ :=
  (token_defaults ⟨"https://auth/t", "id", "sec", none⟩ 1000 200 "" "tokA").2.1
    "mac" 60 (by decide) (by decide)

/-- C10. Zero lifetime treated as omitted: a response with
`expires_in: 0` gets the default lifetime, `expiresAt` = fetch time +
3600 s; indeed the built token is identical to the one built from a
response with `expires_in` absent. -/
theorem zero_expires_in_defaults (cfg : OAuthConfig) (now status : Nat)
    (body a : String) (tt : Option String) :
    ((fetchToken cfg now (.ok ⟨true, status, body, some ⟨a, tt, some 0⟩⟩)).map
        TokenData.expiresAt = .ok (now + 3600 * 1000))
    ∧ fetchToken cfg now (.ok ⟨true, status, body, some ⟨a, tt, some 0⟩⟩)
        = fetchToken cfg now (.ok ⟨true, status, body, some ⟨a, tt, none⟩⟩) := by
  exact ⟨rfl, rfl⟩

/-! ## C6, C3: the interceptor -/

/-- C6. Non-matching pass-through: when the URL starts with no registered
destination's `baseURL`, the interceptor forwards the request through the
original transport with the caller's headers untouched, performs no token
logic (zero fetches, cache unchanged) and returns the transport's
response verbatim. -/
theorem non_matching_pass_through (providers : List (String × ProviderEntry))
    (url : String) (initHeaders : List (String × String))
    (cache0 : Option CacheEntry) (now : Nat)
    (tokenWire : Nat → Except String HttpResponse) (prot : Nat → Response)
    (h : ∀ p ∈ providers, strLeads url p.2.baseURL = false) :
    dispatch providers url initHeaders cache0 now tokenWire prot
      = some ⟨.ok (prot 0), cache0, [initHeaders], 0, none⟩ := by
  have hf : providers.find? (fun p => strLeads url p.2.baseURL) = none := by
    rw [List.find?_eq_none]
    intro p hp
    simp [h p hp]
  unfold dispatch
  rw [hf]

/-- C6 witness: a concrete non-matching request passes through. -/
theorem non_matching_pass_through_witness :
    dispatch [("prov", ⟨"https://api.example.com/v1", ⟨"https://auth/t", "id", "sec", none⟩⟩)]
        "https://other.example.com/x" [("X", "y")] none 0
        (fun _ => .error "unused") (fun _ => ⟨204, "ok"⟩)
      = some ⟨.ok ⟨204, "ok"⟩, none, [[("X", "y")]], 0, none⟩ :=
  non_matching_pass_through _ _ _ _ _ _ _ (by
    intro p hp
    simp only [List.mem_singleton] at hp
    subst hp
    rfl)

/-- C3. 401 retry-once: on a matched request whose first
protected-endpoint response is 401, the interceptor deletes the cache
entry, reacquires through a forced fresh fetch (one more token fetch, and
the cache afterwards holds exactly the newly fetched token), re-sets the
`Authorization` header from the new token, resends exactly once, and
returns the second response regardless of its status (the sent list has
exactly two protected calls — no third attempt even if the second
response is again 401). A non-401 first response is returned directly
with exactly one protected call. -/
theorem retry_once_on_401 (providers : List (String × ProviderEntry))
    (url : String) (initHeaders : List (String × String))
    (cache0 : Option CacheEntry) (now : Nat)
    (tokenWire : Nat → Except String HttpResponse) (prot : Nat → Response)
    (pid : String) (pe : ProviderEntry) (tok1 tok2 : TokenData)
    (cache1 : Option CacheEntry) (f1 : Bool)
    (hfind : providers.find? (fun p => strLeads url p.2.baseURL) = some (pid, pe))
    (h1 : getTokenSeq cache0 now (fetchToken pe.oauth now (tokenWire 0))
            = some (.ok tok1, cache1, f1))
    (h2 : fetchToken pe.oauth now (tokenWire (if f1 then 1 else 0)) = .ok tok2) :
    ((prot 0).status = 401 →
        dispatch providers url initHeaders cache0 now tokenWire prot
          = some ⟨.ok (prot 1), some ⟨some tok2, none⟩,
                  [hset initHeaders "Authorization" (authHeaderValue tok1),
                   hset (hset initHeaders "Authorization" (authHeaderValue tok1))
                     "Authorization" (authHeaderValue tok2)],
                  (if f1 then 1 else 0) + 1, some pid⟩)
    ∧ ((prot 0).status ≠ 401 →
        dispatch providers url initHeaders cache0 now tokenWire prot
          = some ⟨.ok (prot 0), cache1,
                  [hset initHeaders "Authorization" (authHeaderValue tok1)],
                  (if f1 then 1 else 0), some pid⟩) := by
  have e2 : getTokenSeq none now
      (fetchToken pe.oauth now (tokenWire (if f1 then 1 else 0)))
        = some (.ok tok2, some ⟨some tok2, none⟩, true) := by
    rw [h2]; rfl
  constructor
  · intro h401
    simp only [dispatch, hfind, h1, e2, if_pos h401]
  · intro h401
    simp only [dispatch, hfind, h1, if_neg h401]

/-- C3 witness: concrete 401-then-200 dispatch, with hypotheses
discharged at concrete values. -/
theorem retry_once_on_401_witness :
    dispatch [("prov", ⟨"https://api.example.com/v1", ⟨"https://auth/t", "id", "sec", none⟩⟩)]
        "https://api.example.com/v1/models" [("X", "y")] none 0
        (fun n => .ok ⟨true, 200, "", some ⟨"tok" ++ toString n, none, some 3600⟩⟩)
        (fun n => if n == 0 then ⟨401, "no"⟩ else ⟨200, "yes"⟩)
      = some ⟨.ok ⟨200, "yes"⟩,
              some ⟨some ⟨"tok1", "Bearer", 3600000⟩, none⟩,
              [[("X", "y"), ("Authorization", "Bearer tok0")],
               [("X", "y"), ("Authorization", "Bearer tok1")]],
              2, some "prov"⟩ :=
  (retry_once_on_401
      [("prov", ⟨"https://api.example.com/v1", ⟨"https://auth/t", "id", "sec", none⟩⟩)]
      "https://api.example.com/v1/models" [("X", "y")] none 0
      (fun n => .ok ⟨true, 200, "", some ⟨"tok" ++ toString n, none, some 3600⟩⟩)
      (fun n => if n == 0 then ⟨401, "no"⟩ else ⟨200, "yes"⟩)
      "prov" ⟨"https://api.example.com/v1", ⟨"https://auth/t", "id", "sec", none⟩⟩
      ⟨"tok0", "Bearer", 3600000⟩ ⟨"tok1", "Bearer", 3600000⟩
      (some ⟨some ⟨"tok0", "Bearer", 3600000⟩, none⟩) true
      rfl rfl rfl).1 rfl

/-! ## C8: error shapes -/

theorem leadsWith_nil (l : List Char) : leadsWith l [] = true := by
  cases l <;> rfl

theorem leadsWith_self_append (m r : List Char) :
    leadsWith (m ++ r) m = true := by
  induction m with
  | nil => exact leadsWith_nil r
  | cons a m ih => simp [leadsWith, ih]

theorem occursIn_self_append (m r : List Char) :
    occursIn m (m ++ r) = true := by
  cases m with
  | nil =>
      cases r with
      | nil => rfl
      | cons a l => simp [occursIn, leadsWith]
  | cons a m =>
      have h : leadsWith (m ++ r) m = true := leadsWith_self_append m r
      simp [occursIn, leadsWith, h]

theorem occursIn_cons_of (m : List Char) (a : Char) (l : List Char)
    (h : occursIn m l = true) : occursIn m (a :: l) = true := by
  simp [occursIn, h]

theorem occursIn_mid (pre m suf : List Char) :
    occursIn m (pre ++ m ++ suf) = true := by
  induction pre with
  | nil => simpa using occursIn_self_append m suf
  | cons a pre ih => simpa using occursIn_cons_of _ a _ ih

theorem toList_append (a b : String) :
    (a ++ b).toList = a.toList ++ b.toList := by
  cases a; cases b; rfl

/-- C8 counterexample: a non-2xx issuer response makes `fetchToken`
reject with the plain message `Error` built at line 128. With the
destination registered under id `"my-gateway"`, the error value carries
the status and body but not the destination id: the message does not
contain it. (Indeed `fetchToken` never receives the destination id at
all — only the `OAuthConfig`.) -/
theorem fetch_error_lacks_destination_id :
    fetchToken ⟨"https://auth.example.com/token", "client", "secret", none⟩ 0
        (.ok ⟨false, 500, "denied", none⟩)
      = .error "OAuth token failed (500): denied"
    ∧ strOccurs "my-gateway" "OAuth token failed (500): denied" = false := ⟨rfl, rfl⟩

/-- C8 (amended). Fetch errors: a non-2xx issuer response causes
`fetchToken` to signal a plain `Error` whose message contains the HTTP
status and the response body (but no destination id — the error value is
the same for every `OAuthConfig`); a transport-level failure propagates
the underlying cause unchanged, without wrapping; in both cases the
failure surfaces as an error to the awaiting caller, never silently
swallowed. -/
theorem fetch_error_shape :
    (∀ (cfg : OAuthConfig) (now st : Nat) (body : String) (j : Option TokenJson),
        fetchToken cfg now (.ok ⟨false, st, body, j⟩)
          = .error ("OAuth token failed (" ++ toString st ++ "): " ++ body)
        ∧ strOccurs (toString st)
            ("OAuth token failed (" ++ toString st ++ "): " ++ body) = true
        ∧ strOccurs body
            ("OAuth token failed (" ++ toString st ++ "): " ++ body) = true)
    ∧ (∀ (cfg cfg2 : OAuthConfig) (now : Nat) (w : Except String HttpResponse),
        fetchToken cfg now w = fetchToken cfg2 now w)
    ∧ (∀ (cfg : OAuthConfig) (now : Nat) (cause : String),
        fetchToken cfg now (.error cause) = .error cause) := by
  refine ⟨?_, fun cfg cfg2 now w => rfl, fun cfg now cause => rfl⟩
  intro cfg now st body j
  refine ⟨rfl, ?_, ?_⟩
  · show occursIn (toString st).toList
      ("OAuth token failed (" ++ toString st ++ "): " ++ body).toList = true
    rw [toList_append, toList_append, toList_append, List.append_assoc]
    exact occursIn_mid _ _ _
  · show occursIn body.toList
      ("OAuth token failed (" ++ toString st ++ "): " ++ body).toList = true
    rw [toList_append]
    have h := occursIn_mid
      ("OAuth token failed (" ++ toString st ++ "): ").toList body.toList []
    rwa [List.append_nil] at h

/-! ## C5: invalidate and in-flight fetches -/

/-- C5 counterexample: `tokenCache.delete` removes the pending-fetch slot
together with the token. Two callers, empty cache: caller 0 starts fetch
0; the 401 path invalidates; caller 1 then arrives while fetch 0 is still
in flight, yet does NOT join it — a second fetch starts
(`fetchesStarted = 2`), and caller 1 resolves from fetch 1's token
`tokB`, not from the in-flight fetch 0's result `tokA`. -/
theorem caller_after_invalidate_starts_second_fetch :
    (runTrace (mkInit [0, 0])
        [.run 0, .invalidate, .run 1,
         .succeed 0 ⟨"tokA", "Bearer", 900000000⟩,
         .succeed 1 ⟨"tokB", "Bearer", 900000000⟩]).map
      (fun s => (s.callers, s.fetchesStarted))
      = some ([.gotToken ⟨"tokA", "Bearer", 900000000⟩,
               .gotToken ⟨"tokB", "Bearer", 900000000⟩], 2)
    ∧ ("tokA" : String) ≠ "tokB" := ⟨rfl, by decide⟩

/-- C5 (amended). Invalidation frame: `tokenCache.delete` removes the
whole cache entry — cached token AND pending-fetch slot — and touches
nothing else; it does not cancel a fetch already in flight (the flights,
callers and counters are unchanged), and a caller already awaiting that
fetch still observes its result. But a caller arriving after the
invalidation does not see the in-flight fetch and starts a second one. -/
theorem invalidate_removes_entry :
    (∀ s : SysState, applyLabel s .invalidate
        = some ⟨none, s.callers, s.nextFid, s.flights, s.fetchesStarted⟩)
    ∧ (∀ (s s' s'' : SysState) (j fid : Nat) (t : TokenData),
        s.callers.get? j = some (.waiting fid) →
        applyLabel s .invalidate = some s' →
        applyLabel s' (.succeed fid t) = some s'' →
        s''.callers.get? j = some (.gotToken t))
    ∧ (∀ (s s' : SysState) (i now : Nat),
        applyLabel s .invalidate = some s' →
        s'.callers.get? i = some (.ready now) →
        (applyLabel s' (.run i)).map SysState.fetchesStarted
          = some (s.fetchesStarted + 1)) := by
  refine ⟨fun s => rfl, ?_, ?_⟩
  · intro s s' s'' j fid t hj hinv hsucc
    have hs' : s' = { s with entry := none } := by
      simpa [applyLabel] using hinv.symm
    subst hs'
    simp only [applyLabel, completeOk] at hsucc
    by_cases hany : s.flights.any (fun f => f.fid == fid)
    · rw [if_pos hany] at hsucc
      have hs'' := (Option.some.injEq _ _).mp hsucc
      subst hs''
      show (s.callers.map (resolvePhase fid (.gotToken t))).get? j
        = some (.gotToken t)
      rw [List.get?_eq_getElem?, List.getElem?_map, ← List.get?_eq_getElem?, hj]
      simp [resolvePhase]
    · rw [if_neg hany] at hsucc
      exact Option.noConfusion hsucc
  · intro s s' i now hinv hready
    have hs' : s' = { s with entry := none } := by
      simpa [applyLabel] using hinv.symm
    subst hs'
    simp only [applyLabel, runCaller, hready, getTokenDecide, Option.map]

/-! ## Decomposition of the transition steps -/

theorem resolve_get (callers : List Phase) (fid : Nat) (r : Phase) (j : Nat)
    (hj : callers.get? j = some (.waiting fid)) :
    (callers.map (resolvePhase fid r)).get? j = some r := by
  rw [List.get?_eq_getElem?, List.getElem?_map, ← List.get?_eq_getElem?, hj]
  simp [resolvePhase]

theorem runCaller_cases (s s' : SysState) (i : Nat)
    (h : runCaller s i = some s') :
    ∃ now, s.callers.get? i = some (.ready now) ∧
      ((∃ t, getTokenDecide s.entry now = .returnCached t ∧
          s' = { s with callers := s.callers.set i (.gotToken t) })
       ∨ (∃ p, getTokenDecide s.entry now = .awaitPending p ∧
          s' = { s with callers := s.callers.set i (.waiting p) })
       ∨ (getTokenDecide s.entry now = .startFetch ∧
          s' = { s with
            entry := some ⟨s.entry.bind CacheEntry.token, some s.nextFid⟩,
            callers := s.callers.set i (.waiting s.nextFid),
            nextFid := s.nextFid + 1,
            flights := ⟨s.nextFid, s.entry.bind CacheEntry.token⟩ :: s.flights,
            fetchesStarted := s.fetchesStarted + 1 })) := by
  unfold runCaller at h
  split at h
  case _ now hgi =>
    refine ⟨now, hgi, ?_⟩
    split at h
    case _ t hdec =>
      exact Or.inl ⟨t, hdec, ((Option.some.injEq _ _).mp h).symm⟩
    case _ p hdec =>
      exact Or.inr (Or.inl ⟨p, hdec, ((Option.some.injEq _ _).mp h).symm⟩)
    case _ hdec =>
      exact Or.inr (Or.inr ⟨hdec, ((Option.some.injEq _ _).mp h).symm⟩)
  case _ =>
    exact Option.noConfusion h

theorem completeOk_cases (s s' : SysState) (fid : Nat) (t : TokenData)
    (h : completeOk s fid t = some s') :
    s.flights.any (fun f => f.fid == fid) = true ∧
    s' = { s with
           entry := some ⟨some t, none⟩,
           callers := s.callers.map (resolvePhase fid (.gotToken t)),
           flights := s.flights.filter (fun g => g.fid != fid) } := by
  unfold completeOk at h
  split at h
  case _ hany =>
    exact ⟨hany, ((Option.some.injEq _ _).mp h).symm⟩
  case _ =>
    exact Option.noConfusion h

theorem completeErr_cases (s s' : SysState) (fid : Nat) (e : String)
    (h : completeErr s fid e = some s') :
    ∃ f0, s.flights.find? (fun f => f.fid == fid) = some f0 ∧
      s' = { s with
             entry := some ⟨f0.saved, none⟩,
             callers := s.callers.map (resolvePhase fid (.gotError e)),
             flights := s.flights.filter (fun g => g.fid != fid) } := by
  unfold completeErr at h
  split at h
  case _ => exact Option.noConfusion h
  case _ f0 hfind =>
    exact ⟨f0, hfind, ((Option.some.injEq _ _).mp h).symm⟩

/-! ## C1: single-flight invariant -/

theorem decide_startFetch_promSlot (c : Option CacheEntry) (now : Nat)
    (h : getTokenDecide c now = .startFetch) : promSlot c = none := by
  cases c with
  | none => rfl
  | some ce =>
      show ce.promise = none
      cases htok : ce.token with
      | none =>
          cases hpr : ce.promise with
          | none => rfl
          | some p => simp [getTokenDecide, htok, hpr] at h
      | some t =>
          by_cases hlt : now + 60000 < t.expiresAt
          · simp [getTokenDecide, htok, hlt] at h
          · cases hpr : ce.promise with
            | none => rfl
            | some p => simp [getTokenDecide, htok, hpr, hlt] at h

/-- At most one flight, and the promise slot names exactly it. -/
def FlightInv (s : SysState) : Prop :=
  (s.flights = [] ∧ promSlot s.entry = none)
  ∨ ∃ f : Flight, s.flights = [f] ∧ promSlot s.entry = some f.fid

theorem flightInv_step (s s' : SysState) (l : Label) (hl : l ≠ .invalidate)
    (h : applyLabel s l = some s') (inv : FlightInv s) : FlightInv s' := by
  cases l with
  | run i =>
      obtain ⟨now, hgi, hc⟩ := runCaller_cases s s' i h
      rcases hc with ⟨t, hdec, hs'⟩ | ⟨p, hdec, hs'⟩ | ⟨hdec, hs'⟩
      · subst hs'; exact inv
      · subst hs'; exact inv
      · subst hs'
        have hps := decide_startFetch_promSlot s.entry now hdec
        rcases inv with ⟨hfl, _⟩ | ⟨f, _, hps'⟩
        · exact Or.inr ⟨⟨s.nextFid, s.entry.bind CacheEntry.token⟩,
            by simp [hfl], by simp [promSlot]⟩
        · rw [hps] at hps'; exact Option.noConfusion hps'
  | succeed fid t =>
      obtain ⟨hany, hs'⟩ := completeOk_cases s s' fid t h
      subst hs'
      rcases inv with ⟨hfl, _⟩ | ⟨f, hfl, _⟩
      · rw [hfl] at hany
        simp at hany
      · refine Or.inl ⟨?_, rfl⟩
        show s.flights.filter (fun g => g.fid != fid) = []
        rw [hfl] at hany ⊢
        have hf : f.fid = fid := by simpa using hany
        simp [List.filter, hf]
  | fail fid e =>
      obtain ⟨f0, hfind, hs'⟩ := completeErr_cases s s' fid e h
      subst hs'
      rcases inv with ⟨hfl, _⟩ | ⟨f, hfl, _⟩
      · rw [hfl] at hfind
        simp [List.find?] at hfind
      · refine Or.inl ⟨?_, rfl⟩
        show s.flights.filter (fun g => g.fid != fid) = []
        rw [hfl] at hfind ⊢
        have hf : f.fid = fid := by
          by_cases hp : f.fid = fid
          · exact hp
          · have hb : (f.fid == fid) = false := by simpa using hp
            simp [List.find?, hb] at hfind
        simp [List.filter, hf]
  | invalidate => exact absurd rfl hl

theorem flightInv_trace (tr : List Label) : ∀ (s s' : SysState),
    Label.invalidate ∉ tr → runTrace s tr = some s' → FlightInv s →
    FlightInv s' := by
  induction tr with
  | nil =>
      intro s s' _ h inv
      have : s = s' := (Option.some.injEq _ _).mp h
      subst this; exact inv
  | cons l ls ih =>
      intro s s' hni h inv
      unfold runTrace at h
      split at h
      case _ s1 happ =>
          have hl : l ≠ .invalidate := fun he => hni (he ▸ List.mem_cons_self l ls)
          exact ih s1 s' (fun hm => hni (List.mem_cons_of_mem l hm))
            h (flightInv_step s s1 l hl happ inv)
      case _ => exact Option.noConfusion h

/-! ## C1: the N concurrent callers scenario -/

/-- Intermediate state of the N-caller scenario: callers `0..k-1` have
run (caller 0 started fetch 0, the rest joined it), callers `k..n-1` are
still to run. -/
def midState (n k : Nat) : SysState :=
  ⟨some ⟨none, some 0⟩,
   List.replicate k (.waiting 0) ++ List.replicate (n - k) (.ready 0),
   1, [⟨0, none⟩], 1⟩

theorem replicate_append_get (w r : Phase) (k m : Nat) (hm : 0 < m) :
    (List.replicate k w ++ List.replicate m r).get? k = some r := by
  rw [List.get?_eq_getElem?,
    List.getElem?_append_right (by simp : (List.replicate k w).length ≤ k)]
  simp [List.getElem?_replicate, hm]

theorem replicate_append_set (w r : Phase) (k m : Nat) (hm : 0 < m) :
    (List.replicate k w ++ List.replicate m r).set k w
      = List.replicate (k + 1) w ++ List.replicate (m - 1) r := by
  induction k with
  | zero =>
      cases m with
      | zero => omega
      | succ m' => simp [List.replicate_succ]
  | succ k ih =>
      simp only [List.replicate_succ, List.cons_append, List.set_cons_succ]
      rw [ih]
      simp [List.replicate_succ]

theorem run_first (n : Nat) (hn : 0 < n) :
    applyLabel (mkInit (List.replicate n 0)) (.run 0) = some (midState n 1) := by
  cases n with
  | zero => omega
  | succ n' =>
      show runCaller (mkInit (List.replicate (n' + 1) 0)) 0 = some (midState (n' + 1) 1)
      simp [runCaller, mkInit, midState, getTokenDecide,
        List.map_replicate, List.replicate_succ, List.set]

theorem run_mid (n k : Nat) (h1 : 0 < k) (h2 : k < n) :
    applyLabel (midState n k) (.run k) = some (midState n (k + 1)) := by
  have hget : (midState n k).callers.get? k = some (.ready 0) :=
    replicate_append_get _ _ k (n - k) (by omega)
  show runCaller (midState n k) k = some (midState n (k + 1))
  unfold runCaller
  have hdec : getTokenDecide (midState n k).entry 0
      = GetTokenAction.awaitPending 0 := rfl
  simp only [hget, hdec]
  have hset : (midState n k).callers.set k (Phase.waiting 0)
      = List.replicate (k + 1) (Phase.waiting 0)
        ++ List.replicate (n - (k + 1)) (Phase.ready 0) := by
    show (List.replicate k (Phase.waiting 0)
        ++ List.replicate (n - k) (Phase.ready 0)).set k (Phase.waiting 0) = _
    rw [replicate_append_set _ _ k (n - k) (by omega), Nat.sub_sub]
  rw [hset]
  rfl

theorem runTrace_cons_some (s s2 : SysState) (l : Label) (ls : List Label)
    (h : applyLabel s l = some s2) : runTrace s (l :: ls) = runTrace s2 ls := by
  show (match applyLabel s l with
    | some s' => runTrace s' ls
    | none => none) = runTrace s2 ls
  rw [h]

theorem runs_mid (n : Nat) : ∀ (m k : Nat), 0 < k → k + m ≤ n →
    runTrace (midState n k) (seqRuns k m) = some (midState n (k + m)) := by
  intro m
  induction m with
  | zero => intro k h1 h2; simp [seqRuns, runTrace]
  | succ m ih =>
      intro k h1 h2
      show runTrace (midState n k) (.run k :: seqRuns (k + 1) m) = _
      rw [runTrace_cons_some _ _ _ _ (run_mid n k h1 (by omega))]
      have hrec := ih (k + 1) (by omega) (by omega)
      rw [show k + 1 + m = k + (m + 1) from by omega] at hrec
      exact hrec

theorem final_succeed (n : Nat) (t : TokenData) :
    applyLabel (midState n n) (.succeed 0 t)
      = some ⟨some ⟨some t, none⟩, List.replicate n (.gotToken t), 1, [], 1⟩ := by
  show completeOk (midState n n) 0 t = _
  simp [completeOk, midState, resolvePhase, List.map_replicate, List.filter]

theorem runTrace_append (tr1 tr2 : List Label) : ∀ (s s1 : SysState),
    runTrace s tr1 = some s1 → runTrace s (tr1 ++ tr2) = runTrace s1 tr2 := by
  induction tr1 with
  | nil =>
      intro s s1 h
      have : s = s1 := (Option.some.injEq _ _).mp h
      subst this; rfl
  | cons l ls ih =>
      intro s s1 h
      unfold runTrace at h
      split at h
      case _ s2 happ =>
          show runTrace s (l :: (ls ++ tr2)) = runTrace s1 tr2
          rw [runTrace_cons_some _ _ _ _ happ]
          exact ih s2 s1 h
      case _ => exact Option.noConfusion h

/-- C1 counterexample: "at most one token-fetch network call is in
flight at any time" fails as stated. From an empty cache, caller 0 starts
fetch 0; the interceptor's 401 path runs `tokenCache.delete`, erasing the
promise slot while fetch 0 is still in flight; caller 1 then starts a
second fetch. The reached state has two fetches in flight simultaneously
(`flights.length = 2`) and two fetches started. -/
theorem two_fetches_in_flight_after_invalidate :
    (runTrace (mkInit [0, 0]) [.run 0, .invalidate, .run 1]).map
      (fun s => (s.flights.length, s.fetchesStarted)) = some (2, 2) := rfl

/-- C1 (amended). Single-flight deduplication among `getToken` callers:
(1) in every state reachable without an interleaved invalidation, at most
one fetch is in flight; (2) a caller that arrives while the promise slot
holds `p` and the cached token is not usable joins fetch `p` — no new
fetch starts, nothing else changes; (3) N concurrent acquisitions on an
empty cache issue exactly one fetch (`fetchesStarted = 1`) and, when that
fetch resolves with `t`, all N callers resolve to the same token `t`.
(An interleaved `tokenCache.delete` can break single-flight, see the
counterexample.) -/
theorem single_flight_dedup :
    (∀ (times : List Nat) (tr : List Label) (s : SysState),
        Label.invalidate ∉ tr → runTrace (mkInit times) tr = some s →
        s.flights.length ≤ 1)
    ∧ (∀ (s : SysState) (i now p : Nat),
        s.callers.get? i = some (.ready now) →
        promSlot s.entry = some p →
        (∀ t : TokenData, entryToken s.entry = some t →
            t.expiresAt ≤ now + 60000) →
        applyLabel s (.run i)
          = some { s with callers := s.callers.set i (.waiting p) })
    ∧ (∀ (n : Nat) (t : TokenData), 0 < n →
        runTrace (mkInit (List.replicate n 0)) (seqRuns 0 n ++ [.succeed 0 t])
          = some ⟨some ⟨some t, none⟩,
                  List.replicate n (.gotToken t), 1, [], 1⟩) := by
  refine ⟨?_, ?_, ?_⟩
  · intro times tr s hni hrun
    have hinv0 : FlightInv (mkInit times) := Or.inl ⟨rfl, rfl⟩
    rcases flightInv_trace tr (mkInit times) s hni hrun hinv0 with
      ⟨hfl, _⟩ | ⟨f, hfl, _⟩ <;> simp [hfl]
  · intro s i now p hready hprom hstale
    show runCaller s i = some _
    unfold runCaller
    have hdec : getTokenDecide s.entry now = .awaitPending p := by
      cases hc : s.entry with
      | none => rw [hc] at hprom; exact Option.noConfusion hprom
      | some ce =>
          have hpr : ce.promise = some p := by
            have := hprom; rw [hc] at this; exact this
          cases htok : ce.token with
          | none => simp [getTokenDecide, htok, hpr]
          | some t =>
              have ht := hstale t (by rw [hc, entryToken_def]; simp [htok])
              have hlt : ¬ (now + 60000 < t.expiresAt) := by omega
              simp [getTokenDecide, htok, hpr, hlt]
    simp only [hready, hdec]
  · intro n t hn
    cases n with
    | zero => omega
    | succ n' =>
        have e0 : applyLabel (mkInit (List.replicate (n' + 1) 0)) (.run 0)
            = some (midState (n' + 1) 1) := run_first _ (by omega)
        have e1 : runTrace (midState (n' + 1) 1) (seqRuns 1 n')
            = some (midState (n' + 1) (1 + n')) :=
          runs_mid (n' + 1) n' 1 (by omega) (by omega)
        have etr : runTrace (mkInit (List.replicate (n' + 1) 0))
            (seqRuns 0 (n' + 1)) = some (midState (n' + 1) (n' + 1)) := by
          show runTrace _ (.run 0 :: seqRuns 1 n') = _
          rw [runTrace_cons_some _ _ _ _ e0, e1,
            show 1 + n' = n' + 1 from by omega]
        rw [runTrace_append _ _ _ _ etr]
        show (match applyLabel (midState (n' + 1) (n' + 1)) (.succeed 0 t) with
          | some s' => runTrace s' []
          | none => none) = _
        rw [final_succeed (n' + 1) t]
        rfl

/-- C1 witness: each conjunct of the theorem at concrete inputs. -/
theorem single_flight_dedup_witness :
    (SysState.mk (some ⟨none, some 0⟩) [.waiting 0] 1 [⟨0, none⟩] 1).flights.length ≤ 1
    ∧ applyLabel ⟨some ⟨none, some 7⟩, [.ready 0], 1, [⟨7, none⟩], 1⟩ (.run 0)
        = some ⟨some ⟨none, some 7⟩, [.waiting 7], 1, [⟨7, none⟩], 1⟩
    ∧ runTrace (mkInit (List.replicate 2 0))
        (seqRuns 0 2 ++ [.succeed 0 ⟨"tokS", "Bearer", 1000⟩])
        = some ⟨some ⟨some ⟨"tokS", "Bearer", 1000⟩, none⟩,
                List.replicate 2 (.gotToken ⟨"tokS", "Bearer", 1000⟩), 1, [], 1⟩ :=
  ⟨single_flight_dedup.1 [0] [.run 0]
      ⟨some ⟨none, some 0⟩, [.waiting 0], 1, [⟨0, none⟩], 1⟩ (by decide) rfl,
   single_flight_dedup.2.1 ⟨some ⟨none, some 7⟩, [.ready 0], 1, [⟨7, none⟩], 1⟩
      0 0 7 rfl rfl (by intro t ht; simp [entryToken] at ht),
   single_flight_dedup.2.2 2 ⟨"tokS", "Bearer", 1000⟩ (by decide)⟩

/-- C5 witness: the amended theorem's second conjunct at a concrete
state: a caller awaiting fetch 0 still gets its token after an
invalidation. -/
theorem invalidate_removes_entry_witness :
    (SysState.mk (some ⟨some ⟨"tokC", "Bearer", 5000000⟩, none⟩)
        [.gotToken ⟨"tokC", "Bearer", 5000000⟩] 1 [] 1).callers.get? 0
      = some (.gotToken ⟨"tokC", "Bearer", 5000000⟩) :=
  invalidate_removes_entry.2.1
    ⟨some ⟨none, some 0⟩, [.waiting 0], 1, [⟨0, none⟩], 1⟩
    ⟨none, [.waiting 0], 1, [⟨0, none⟩], 1⟩
    ⟨some ⟨some ⟨"tokC", "Bearer", 5000000⟩, none⟩,
     [.gotToken ⟨"tokC", "Bearer", 5000000⟩], 1, [], 1⟩
    0 0 ⟨"tokC", "Bearer", 5000000⟩ rfl rfl rfl

/-! ## C4: fetch-failure atomicity -/

/-- Well-formedness of the flights list: fetch identifiers are distinct
and below the fresh-identifier counter. Holds initially and is preserved
by every step. -/
def FlightsWF (s : SysState) : Prop :=
  (s.flights.map Flight.fid).Nodup ∧ ∀ f ∈ s.flights, f.fid < s.nextFid

theorem find?_flight (l : List Flight) (fid : Nat) (sv : Option TokenData)
    (hnd : (l.map Flight.fid).Nodup) (hm : (⟨fid, sv⟩ : Flight) ∈ l) :
    l.find? (fun f => f.fid == fid) = some ⟨fid, sv⟩ := by
  induction l with
  | nil => cases hm
  | cons g l ih =>
      rcases List.mem_cons.mp hm with heq | hm'
      · rw [← heq]
        have hp : ((⟨fid, sv⟩ : Flight).fid == fid) = true := by simp
        simp [List.find?, hp]
      · have hnd' : (l.map Flight.fid).Nodup := (List.nodup_cons.mp
          (by simpa using hnd)).2
        have hgfid : g.fid ≠ fid := by
          intro hg
          have h1 : fid ∈ l.map Flight.fid := by
            have := List.mem_map_of_mem Flight.fid hm'
            simpa using this
          have h2 : g.fid ∉ l.map Flight.fid := (List.nodup_cons.mp
            (by simpa using hnd)).1
          rw [hg] at h2
          exact h2 h1
        have hp : (g.fid == fid) = false := by simpa using hgfid
        simp only [List.find?, hp]
        exact ih hnd' hm'

/-- C4. Fetch-failure atomicity: (i) initially well-formed, (ii) every
step preserves well-formedness, (iii) when a caller starts a fetch, the
flight record captures the token cached at that moment (`existingToken`,
line 159), (iv) when fetch `fid` fails, the cache entry afterwards holds
exactly that captured token with the pending slot cleared, every caller
awaiting `fid` observes the error, and `fid` is no longer in flight;
(v) when fetch `fid` succeeds with `t`, the new token is stored with the
pending slot cleared, every awaiting caller observes `t`, and `fid` is no
longer in flight. -/
theorem fetch_failure_atomicity :
    (∀ times : List Nat, FlightsWF (mkInit times))
    ∧ (∀ (s s' : SysState) (l : Label),
        applyLabel s l = some s' → FlightsWF s → FlightsWF s')
    ∧ (∀ (s : SysState) (i now : Nat),
        s.callers.get? i = some (.ready now) →
        getTokenDecide s.entry now = .startFetch →
        applyLabel s (.run i) = some
          ⟨some ⟨entryToken s.entry, some s.nextFid⟩,
           s.callers.set i (.waiting s.nextFid),
           s.nextFid + 1,
           ⟨s.nextFid, entryToken s.entry⟩ :: s.flights,
           s.fetchesStarted + 1⟩)
    ∧ (∀ (s s' : SysState) (fid : Nat) (sv : Option TokenData) (e : String),
        FlightsWF s → (⟨fid, sv⟩ : Flight) ∈ s.flights →
        applyLabel s (.fail fid e) = some s' →
        s'.entry = some ⟨sv, none⟩
        ∧ (∀ j, s.callers.get? j = some (.waiting fid) →
            s'.callers.get? j = some (.gotError e))
        ∧ ∀ g ∈ s'.flights, g.fid ≠ fid)
    ∧ (∀ (s s' : SysState) (fid : Nat) (t : TokenData),
        applyLabel s (.succeed fid t) = some s' →
        s'.entry = some ⟨some t, none⟩
        ∧ (∀ j, s.callers.get? j = some (.waiting fid) →
            s'.callers.get? j = some (.gotToken t))
        ∧ ∀ g ∈ s'.flights, g.fid ≠ fid) := by
  refine ⟨?_, ?_, ?_, ?_, ?_⟩
  · intro times
    exact ⟨by simp [mkInit], by intro f hf; simp [mkInit] at hf⟩
  · intro s s' l h hwf
    obtain ⟨hnd, hbound⟩ := hwf
    cases l with
    | run i =>
        obtain ⟨now, hgi, hc⟩ := runCaller_cases s s' i h
        rcases hc with ⟨t, _, hs'⟩ | ⟨p, _, hs'⟩ | ⟨_, hs'⟩
        · subst hs'; exact ⟨hnd, hbound⟩
        · subst hs'; exact ⟨hnd, hbound⟩
        · subst hs'
          constructor
          · show (Flight.fid ⟨s.nextFid, s.entry.bind CacheEntry.token⟩
              :: s.flights.map Flight.fid).Nodup
            rw [List.nodup_cons]
            exact ⟨by
              intro hmem
              rcases List.mem_map.mp hmem with ⟨f, hf, hfid⟩
              have := hbound f hf
              simp only [Flight.fid] at hfid
              omega, hnd⟩
          · intro f hf
            rcases List.mem_cons.mp hf with heq | hmem
            · rw [heq]; show s.nextFid < s.nextFid + 1; omega
            · have := hbound f hmem
              show f.fid < s.nextFid + 1
              omega
    | succeed fid t =>
        obtain ⟨hany, hs'⟩ := completeOk_cases s s' fid t h
        subst hs'
        constructor
        · show ((s.flights.filter (fun g => g.fid != fid)).map Flight.fid).Nodup
          exact List.Nodup.sublist
            (List.Sublist.map _ (List.filter_sublist s.flights)) hnd
        · intro f hf
          exact hbound f (List.mem_of_mem_filter hf)
    | fail fid e =>
        obtain ⟨f0, _, hs'⟩ := completeErr_cases s s' fid e h
        subst hs'
        constructor
        · show ((s.flights.filter (fun g => g.fid != fid)).map Flight.fid).Nodup
          exact List.Nodup.sublist
            (List.Sublist.map _ (List.filter_sublist s.flights)) hnd
        · intro f hf
          exact hbound f (List.mem_of_mem_filter hf)
    | invalidate =>
        have hs' : s' = { s with entry := none } := by
          simpa [applyLabel] using h.symm
        subst hs'
        exact ⟨hnd, hbound⟩
  · intro s i now hready hdec
    show runCaller s i = some _
    unfold runCaller
    simp only [hready, hdec]
    rw [entryToken_def]
  · intro s s' fid sv e hwf hm h
    obtain ⟨f0, hfind, hs'⟩ := completeErr_cases s s' fid e h
    have hf0 : f0 = ⟨fid, sv⟩ := by
      rw [find?_flight s.flights fid sv hwf.1 hm] at hfind
      exact ((Option.some.injEq _ _).mp hfind).symm
    subst hs'
    refine ⟨by rw [hf0], ?_, ?_⟩
    · intro j hj
      exact resolve_get s.callers fid (.gotError e) j hj
    · intro g hg
      have := List.mem_filter.mp hg
      simpa using this.2
  · intro s s' fid t h
    obtain ⟨hany, hs'⟩ := completeOk_cases s s' fid t h
    subst hs'
    refine ⟨rfl, ?_, ?_⟩
    · intro j hj
      exact resolve_get s.callers fid (.gotToken t) j hj
    · intro g hg
      have := List.mem_filter.mp hg
      simpa using this.2

/-- C4 witness: the failure conjunct at a concrete state — a stale token
`tokOld` is cached, fetch 5 (which captured it) fails, and the cache
still holds `tokOld` while the awaiting caller sees the error. -/
theorem fetch_failure_atomicity_witness :
    (SysState.mk
        (some ⟨some ⟨"tokOld", "Bearer", 70000⟩, none⟩)
        [.gotError "boom"] 6 [] 1).entry
      = some ⟨some ⟨"tokOld", "Bearer", 70000⟩, none⟩ :=
  (fetch_failure_atomicity.2.2.2.1
    ⟨some ⟨some ⟨"tokOld", "Bearer", 70000⟩, some 5⟩, [.waiting 5], 6,
     [⟨5, some ⟨"tokOld", "Bearer", 70000⟩⟩], 1⟩
    ⟨some ⟨some ⟨"tokOld", "Bearer", 70000⟩, none⟩, [.gotError "boom"], 6, [], 1⟩
    5 (some ⟨"tokOld", "Bearer", 70000⟩) "boom"
    ⟨by decide, by intro f hf; simp at hf; rw [hf]; decide⟩
    (by simp) rfl).1

end OAuthPlugin
